import Mathlib

/-!
Verification of the membership-management REST API (members, zones, events,
payments, notifications) against its specification.

The development shallowly embeds the domain services: document stores become
functions `Nat → Option _` or lists, Mongoose documents become structures,
thrown errors become `Except` values, and the Express error middleware becomes
a function from error shapes to HTTP status/message pairs.  Each definition
mirrors one function of the JavaScript sources; deviations (JavaScript
truthiness, `Date.setMonth` normalisation) are noted where they matter.
-/

namespace CMS

/-! ## Calendar dates

`member.renewalDate` is a JavaScript `Date`; renewal arithmetic uses
`getMonth`/`setMonth`, which views a date as (year, 0-indexed month, day).
-/

/-- A calendar date as JavaScript `Date` exposes it: `month` is 0-indexed
(0 = January) and `day` is 1-based. -/
structure CalDate where
  year : Nat
  month : Nat
  day : Nat
deriving Repr, DecidableEq

/-- Gregorian leap-year rule used by JavaScript `Date`. -/
def isLeapYear (y : Nat) : Bool :=
  y % 4 == 0 && (y % 100 != 0 || y % 400 == 0)

/-- Number of days of 0-indexed month `m` in year `y`. -/
def daysInMonth (y m : Nat) : Nat :=
  if m = 1 then (if isLeapYear y then 29 else 28)
  else if m = 3 ∨ m = 5 ∨ m = 8 ∨ m = 10 then 30
  else 31

/-- Linear month index of a date, used to state calendar-month arithmetic. -/
def monthIndex (d : CalDate) : Nat := d.year * 12 + d.month

/-- `newRenewalDate.setMonth(newRenewalDate.getMonth() + renewalPeriod)` from
`MemberService.renewMembership`: JavaScript adds to the month field, carries
month overflow into the year, keeps the day-of-month, and normalises a day
past the end of the target month by rolling into the following month (for
valid inputs the day exceeds a month length by at most 3, so one step). -/
def jsSetMonthAdd (d : CalDate) (period : Nat) : CalDate :=
  let total := d.year * 12 + d.month + period
  let y := total / 12
  let m := total % 12
  if d.day ≤ daysInMonth y m then ⟨y, m, d.day⟩
  else if m = 11 then ⟨y + 1, 0, d.day - daysInMonth y m⟩
  else ⟨y, m + 1, d.day - daysInMonth y m⟩

/-- Strict order on calendar dates (JavaScript `Date` comparison restricted to
dates, time-of-day ignored). -/
def dateBefore (a b : CalDate) : Bool :=
  monthIndex a < monthIndex b || (monthIndex a == monthIndex b && a.day < b.day)

/-! ## Data model (`member.model.js`, `payment.model.js`) -/

/-- A `Member` document (`member.model.js`).  References (`user`, `zone`) and
the Mongo `_id` are modelled as `Nat`. -/
structure Member where
  id : Nat
  user : Nat
  memberId : String
  name : String
  phone : String
  zone : Nat
  membershipType : String
  status : String
  renewalDate : CalDate
  isActive : Bool
deriving Repr, DecidableEq

/-- A `Payment` document (`payment.model.js`). -/
structure Payment where
  paymentId : String
  member : Nat
  amount : Int
  paymentType : String
  paymentMethod : String
  status : String
  transactionId : String
  description : String
  receiptFile : Option String
  event : Option Nat
  paymentDate : Nat
  processedBy : Option Nat
  isActive : Bool
deriving Repr, DecidableEq

/-! ## Member renewal (`MemberService.renewMembership`) -/

/-- Body of a renewal request, after `renewMembershipSchema` validation
(`renewalPeriod` is an integer between 1 and 60). -/
structure RenewalData where
  renewalPeriod : Nat
  paymentAmount : Int
  paymentMethod : String
  transactionId : String
deriving Repr, DecidableEq

/-- Return value of `MemberService.renewMembership`. -/
structure RenewResult where
  member : Member
  payment : Payment
  previousRenewalDate : CalDate
  newRenewalDate : CalDate
deriving Repr, DecidableEq

/-- `MemberService.renewMembership` (member service, lines 427-478): looks
the member up, rejects missing or inactive members with "Member not found",
advances `renewalDate` by `renewalPeriod` months via `setMonth`, records a
Completed "Membership Fee" payment, and sets the member Active.  The
generate-check-retry payment-id loop and the wall clock are abstracted into
the `freshPaymentId` and `now` arguments. -/
def renewMembership (findMember : Nat → Option Member) (memberId : Nat)
    (renewalData : RenewalData) (processedBy : Nat)
    (freshPaymentId : String) (now : Nat) : Except String RenewResult :=
  match findMember memberId with
  | none => .error "Member not found"
  | some member =>
    if member.isActive = false then .error "Member not found" else
    let currentRenewalDate := member.renewalDate
    let newRenewalDate := jsSetMonthAdd currentRenewalDate renewalData.renewalPeriod
    let payment : Payment :=
      { paymentId := freshPaymentId
        member := memberId
        amount := renewalData.paymentAmount
        paymentType := "Membership Fee"
        paymentMethod := renewalData.paymentMethod
        status := "Completed"
        transactionId := renewalData.transactionId
        description := "Membership renewal for " ++ toString renewalData.renewalPeriod ++ " months"
        receiptFile := none
        event := none
        paymentDate := now
        processedBy := some processedBy
        isActive := true }
    let member2 := { member with renewalDate := newRenewalDate, status := "Active" }
    .ok { member := member2
          payment := payment
          previousRenewalDate := currentRenewalDate
          newRenewalDate := newRenewalDate }

/-- C1: on an existing member with `isActive = true`, `renewMembership`
returns `{member, payment, previousRenewalDate, newRenewalDate}` where the
new renewal date is the previous one advanced by `renewalPeriod` calendar
months (month index shifted by the period, day preserved whenever the day
exists in the target month, e.g. 2024-01-15 + 3 months = 2024-04-15), the
payment has type "Membership Fee", status "Completed" and the requested
amount, and the member is set Active; on a missing or inactive member it
fails with the not-found error. -/
theorem renewMembership_spec (findMember : Nat → Option Member) (memberId : Nat)
    (rd : RenewalData) (processedBy : Nat) (pid : String) (now : Nat) :
    (∀ m, findMember memberId = some m → m.isActive = true →
      ∃ r, renewMembership findMember memberId rd processedBy pid now = .ok r ∧
        r.previousRenewalDate = m.renewalDate ∧
        r.newRenewalDate = jsSetMonthAdd m.renewalDate rd.renewalPeriod ∧
        (m.renewalDate.day ≤
            daysInMonth ((monthIndex m.renewalDate + rd.renewalPeriod) / 12)
              ((monthIndex m.renewalDate + rd.renewalPeriod) % 12) →
          monthIndex r.newRenewalDate = monthIndex m.renewalDate + rd.renewalPeriod ∧
          r.newRenewalDate.day = m.renewalDate.day) ∧
        r.payment.paymentType = "Membership Fee" ∧
        r.payment.status = "Completed" ∧
        r.payment.amount = rd.paymentAmount ∧
        r.member.status = "Active" ∧
        r.member.renewalDate = r.newRenewalDate) ∧
    (findMember memberId = none →
      renewMembership findMember memberId rd processedBy pid now = .error "Member not found") ∧
    (∀ m, findMember memberId = some m → m.isActive = false →
      renewMembership findMember memberId rd processedBy pid now = .error "Member not found") := by
  refine ⟨?_, ?_, ?_⟩
  · intro m hm hact
    simp only [renewMembership, hm, hact]
    refine ⟨_, rfl, rfl, rfl, ?_, rfl, rfl, rfl, rfl, rfl⟩
    intro hday
    unfold jsSetMonthAdd
    simp only [monthIndex] at hday ⊢
    rw [if_pos hday]
    exact ⟨by simp only []; omega, rfl⟩
  · intro hm
    simp [renewMembership, hm]
  · intro m hm hact
    simp [renewMembership, hm, hact]

/-- Member used to instantiate the renewal theorem: renewal date 2024-01-15
(January is month index 0 in the JavaScript view). -/
def demoMember : Member :=
  { id := 1, user := 10, memberId := "MEMX1", name := "A", phone := "1",
    zone := 3, membershipType := "Basic", status := "Expired",
    renewalDate := ⟨2024, 0, 15⟩, isActive := true }

/-- Concrete instance of C1: renewing `demoMember` (renewal date 2024-01-15)
for 3 months gives new renewal date 2024-04-15 (month index 3 = April), a
Completed "Membership Fee" payment of the requested amount, and an Active
member. -/
theorem renewMembership_spec_witness :
    ∃ r, renewMembership (fun i => if i = 1 then some demoMember else none) 1
        ⟨3, 100, "Cash", "T1"⟩ 9 "PAY1" 0 = .ok r ∧
      r.newRenewalDate = ⟨2024, 3, 15⟩ ∧
      r.payment.paymentType = "Membership Fee" ∧
      r.payment.status = "Completed" ∧
      r.payment.amount = 100 ∧
      r.member.status = "Active" := by
  obtain ⟨r, hok, hprev, hnew, hday, hpt, hps, hpa, hms, hmr⟩ :=
    (renewMembership_spec (fun i => if i = 1 then some demoMember else none) 1
      ⟨3, 100, "Cash", "T1"⟩ 9 "PAY1" 0).1 demoMember (by decide) (by decide)
  refine ⟨r, hok, ?_, hpt, hps, hpa, hms⟩
  rw [hnew]; decide

/-! ## Expiration sweep (`MemberService.updateExpiredMembers`)

The controller `MemberController.updateExpiredMembers` calls
`MemberService.updateExpiredMembers()`, but the member service in the sources
ends at `renewMembership`; the implementation of the sweep is not part of the
sources, so it is modelled from the spec below.
-/

/-- Modelled from the spec: the condition of the batch sweep — an active
member whose `renewalDate` has passed and whose status is not "Expired"
(`updateExpiredMembers` of the member service is missing from the sources;
only its controller caller is present). -/
def shouldExpire (now : CalDate) (m : Member) : Bool :=
  m.isActive && dateBefore m.renewalDate now && m.status != "Expired"

/-- Modelled from the spec: `MemberService.updateExpiredMembers` — "batch
sweep: every active member whose renewalDate has passed and status≠Expired is
transitioned to Expired. Returns count updated."  The implementation is
absent from the sources (only the controller caller exists), so the sweep is
modelled as a pass over the member collection returning the updated
collection and the number of updated documents. -/
def updateExpiredMembers (now : CalDate) : List Member → List Member × Nat
  | [] => ([], 0)
  | m :: rest =>
    let r := updateExpiredMembers now rest
    if shouldExpire now m then ({ m with status := "Expired" } :: r.1, r.2 + 1)
    else (m :: r.1, r.2)

/-- C2: the sweep sets exactly the active members with a past `renewalDate`
and status ≠ "Expired" to status "Expired", leaves every other member
unchanged, and returns the number of members it updated. -/
theorem updateExpiredMembers_spec (now : CalDate) (members : List Member) :
    (updateExpiredMembers now members).1 =
      members.map (fun m =>
        if m.isActive && dateBefore m.renewalDate now && m.status != "Expired"
        then { m with status := "Expired" } else m) ∧
    (updateExpiredMembers now members).2 =
      (members.filter (fun m =>
        m.isActive && dateBefore m.renewalDate now && m.status != "Expired")).length := by
  induction members with
  | nil => exact ⟨rfl, rfl⟩
  | cons m rest ih =>
    by_cases h : (m.isActive && dateBefore m.renewalDate now && m.status != "Expired") = true
    · have hs : shouldExpire now m = true := h
      have hp : (m.isActive = true ∧ dateBefore m.renewalDate now = true) ∧
          ¬m.status = "Expired" := by
        simpa [Bool.and_eq_true, bne_iff_ne] using h
      simp [updateExpiredMembers, hs, h, ih.1, ih.2, List.filter_cons, hp]
    · have hb : (m.isActive && dateBefore m.renewalDate now && m.status != "Expired") = false := by
        revert h; cases (m.isActive && dateBefore m.renewalDate now && m.status != "Expired") <;>
          simp
      have hs : shouldExpire now m = false := hb
      have hp : ¬((m.isActive = true ∧ dateBefore m.renewalDate now = true) ∧
          ¬m.status = "Expired") := by
        simpa [Bool.and_eq_true, bne_iff_ne] using hb
      simp [updateExpiredMembers, hs, hb, ih.1, ih.2, List.filter_cons, hp]

/-! ## Events (`event.model.js`, `EventService`) -/

/-- An entry of `event.attendees` (`event.model.js`). -/
structure Attendee where
  member : Nat
  registrationDate : Nat
  attendanceStatus : String
  paymentStatus : String
deriving Repr, DecidableEq

/-- An `Event` document (`event.model.js`).  `maxAttendees` is optional. -/
structure Event where
  id : Nat
  title : String
  eventDate : Nat
  maxAttendees : Option Nat
  registrationFee : Int
  status : String
  attendees : List Attendee
  createdBy : Nat
  isActive : Bool
deriving Repr, DecidableEq

/-! ## Event registration (`EventService.registerMemberForEvent`) -/

/-- The capacity guard `event.maxAttendees && event.attendees.length >=
event.maxAttendees`: in JavaScript a missing `maxAttendees` — and the value
0 — is falsy, so the check only fires for a nonzero cap. -/
def atCapacity (e : Event) : Bool :=
  match e.maxAttendees with
  | none => false
  | some c => c != 0 && decide (e.attendees.length ≥ c)

/-- `EventService.registerMemberForEvent`: validates, in source order, event
existence/activity, member existence/activity, event status, duplicate
registration, and capacity; on success appends one attendee record whose
`paymentStatus` depends on `registrationFee`.  `now` stands for the
`registrationDate` default `Date.now`. -/
def registerMemberForEvent (findEvent : Nat → Option Event)
    (findMember : Nat → Option Member) (eventId memberId : Nat) (now : Nat) :
    Except String Event :=
  match findEvent eventId with
  | none => .error "Event not found"
  | some event =>
  if event.isActive = false then .error "Event not found" else
  match findMember memberId with
  | none => .error "Member not found"
  | some member =>
  if member.isActive = false then .error "Member not found" else
  if event.status ≠ "Upcoming" then .error "Event is not accepting registrations" else
  if event.attendees.any (fun a => a.member == memberId) then
    .error "Member is already registered for this event" else
  if atCapacity event then .error "Event is at maximum capacity" else
  .ok { event with attendees := event.attendees ++
        [{ member := memberId, registrationDate := now,
           attendanceStatus := "Registered",
           paymentStatus := if event.registrationFee > 0 then "Pending" else "Paid" }] }

/-- The event store after one registration request: the service persists the
updated event on success (`event.save()`) and leaves the store untouched when
it throws. -/
def applyRegistration (findEvent : Nat → Option Event)
    (findMember : Nat → Option Member) (eventId memberId now : Nat) :
    Nat → Option Event :=
  match registerMemberForEvent findEvent findMember eventId memberId now with
  | .error _ => findEvent
  | .ok e2 => fun i => if i = eventId then some e2 else findEvent i

/-- The event store after a sequence of registration requests
`(eventId, memberId, now)`. -/
def applyRegistrations (findMember : Nat → Option Member)
    (findEvent : Nat → Option Event) : List (Nat × Nat × Nat) → (Nat → Option Event)
  | [] => findEvent
  | (eid, mid, now) :: rest =>
      applyRegistrations findMember (applyRegistration findEvent findMember eid mid now) rest

/-- Schema constraint of `event.model.js`: `maxAttendees` carries
`min: 1`, so a stored event never has cap 0. -/
def eventWF (e : Event) : Prop :=
  ∀ c, e.maxAttendees = some c → 1 ≤ c

/-- The invariant of C3: each member reference appears at most once in
`attendees`, and the attendee count never exceeds `maxAttendees` when set. -/
def eventInvariant (e : Event) : Prop :=
  (e.attendees.map (fun a => a.member)).Nodup ∧
  ∀ c, e.maxAttendees = some c → e.attendees.length ≤ c

/-- Inversion of a successful registration: every guard passed and the
result is the input event with exactly one attendee appended. -/
theorem register_ok_inv {findEvent : Nat → Option Event}
    {findMember : Nat → Option Member} {eventId memberId now : Nat} {e2 : Event}
    (h : registerMemberForEvent findEvent findMember eventId memberId now = .ok e2) :
    ∃ event member, findEvent eventId = some event ∧ event.isActive = true ∧
      findMember memberId = some member ∧ member.isActive = true ∧
      event.status = "Upcoming" ∧
      event.attendees.any (fun a => a.member == memberId) = false ∧
      atCapacity event = false ∧
      e2 = { event with attendees := event.attendees ++
        [{ member := memberId, registrationDate := now,
           attendanceStatus := "Registered",
           paymentStatus := if event.registrationFee > 0 then "Pending" else "Paid" }] } := by
  unfold registerMemberForEvent at h
  split at h
  · simp at h
  rename_i event hev
  split at h
  · simp at h
  rename_i hact
  split at h
  · simp at h
  rename_i member hmem
  split at h
  · simp at h
  rename_i hma
  split at h
  · simp at h
  rename_i hst
  split at h
  · simp at h
  rename_i hdup
  split at h
  · simp at h
  rename_i hcap
  exact ⟨event, member, hev, by simpa using hact, hmem, by simpa using hma,
    by simpa using hst, by simpa using hdup, by simpa using hcap,
    (Except.ok.inj h).symm⟩

/-- A successful registration preserves well-formedness and the C3
invariant. -/
theorem register_ok_preserves {findEvent : Nat → Option Event}
    {findMember : Nat → Option Member} {eventId memberId now : Nat} {e2 : Event}
    (h : registerMemberForEvent findEvent findMember eventId memberId now = .ok e2)
    (hwfinv : ∀ e, findEvent eventId = some e → eventWF e ∧ eventInvariant e) :
    eventWF e2 ∧ eventInvariant e2 := by
  obtain ⟨event, member, hev, -, -, -, -, hdup, hcap, he2⟩ := register_ok_inv h
  have hall := hwfinv event hev
  have hwf := hall.1
  have hnodup := hall.2.1
  have hlen := hall.2.2
  subst he2
  refine ⟨fun c hc => hwf c hc, ?_, ?_⟩
  · simp only [List.map_append, List.map_cons, List.map_nil]
    rw [List.nodup_append]
    refine ⟨hnodup, List.nodup_singleton _, ?_⟩
    intro x hx
    simp only [List.mem_singleton]
    intro hxm
    subst hxm
    simp only [List.any_eq_false] at hdup
    obtain ⟨a, ha, hax⟩ := List.mem_map.mp hx
    exact absurd (by simpa using hax) (by simpa using hdup a ha)
  · intro c hc
    have hc1 := hwf c hc
    simp only [List.length_append, List.length_cons, List.length_nil]
    unfold atCapacity at hcap
    rw [hc] at hcap
    simp only [Bool.and_eq_false_iff] at hcap
    rcases hcap with hcap | hcap
    · exact absurd (by omega : c ≠ 0) (by simpa using hcap)
    · have : ¬ event.attendees.length ≥ c := by simpa using hcap
      omega

/-- C4: `registerMemberForEvent` performs its guards in source order — event
existence/activity, member existence/activity, event status "Upcoming",
duplicate registration, capacity — so the first violated guard fixes the
error message; on success it appends one attendee with
`attendanceStatus = "Registered"` and `paymentStatus = "Pending"` exactly when
`registrationFee > 0`, else `"Paid"`. -/
theorem registerMemberForEvent_checks (findEvent : Nat → Option Event)
    (findMember : Nat → Option Member) (eventId memberId now : Nat) :
    ((findEvent eventId = none ∨ ∃ e, findEvent eventId = some e ∧ e.isActive = false) →
      registerMemberForEvent findEvent findMember eventId memberId now =
        .error "Event not found") ∧
    (∀ e, findEvent eventId = some e → e.isActive = true →
      (findMember memberId = none ∨ ∃ m, findMember memberId = some m ∧ m.isActive = false) →
      registerMemberForEvent findEvent findMember eventId memberId now =
        .error "Member not found") ∧
    (∀ e m, findEvent eventId = some e → e.isActive = true →
      findMember memberId = some m → m.isActive = true → e.status ≠ "Upcoming" →
      registerMemberForEvent findEvent findMember eventId memberId now =
        .error "Event is not accepting registrations") ∧
    (∀ e m, findEvent eventId = some e → e.isActive = true →
      findMember memberId = some m → m.isActive = true → e.status = "Upcoming" →
      e.attendees.any (fun a => a.member == memberId) = true →
      registerMemberForEvent findEvent findMember eventId memberId now =
        .error "Member is already registered for this event") ∧
    (∀ e m, findEvent eventId = some e → e.isActive = true →
      findMember memberId = some m → m.isActive = true → e.status = "Upcoming" →
      e.attendees.any (fun a => a.member == memberId) = false →
      atCapacity e = true →
      registerMemberForEvent findEvent findMember eventId memberId now =
        .error "Event is at maximum capacity") ∧
    (∀ e m, findEvent eventId = some e → e.isActive = true →
      findMember memberId = some m → m.isActive = true → e.status = "Upcoming" →
      e.attendees.any (fun a => a.member == memberId) = false →
      atCapacity e = false →
      registerMemberForEvent findEvent findMember eventId memberId now =
        .ok { e with attendees := e.attendees ++
          [{ member := memberId, registrationDate := now,
             attendanceStatus := "Registered",
             paymentStatus := if e.registrationFee > 0 then "Pending" else "Paid" }] }) := by
  refine ⟨?_, ?_, ?_, ?_, ?_, ?_⟩
  · rintro (hev | ⟨e, hev, hact⟩)
    · simp [registerMemberForEvent, hev]
    · simp [registerMemberForEvent, hev, hact]
  · rintro e hev hact (hmem | ⟨m, hmem, hma⟩)
    · simp [registerMemberForEvent, hev, hact, hmem]
    · simp [registerMemberForEvent, hev, hact, hmem, hma]
  · intro e m hev hact hmem hma hst
    simp [registerMemberForEvent, hev, hact, hmem, hma, hst]
  · intro e m hev hact hmem hma hst hdup
    simp [registerMemberForEvent, hev, hact, hmem, hma, hst, hdup]
  · intro e m hev hact hmem hma hst hdup hcap
    simp [registerMemberForEvent, hev, hact, hmem, hma, hst, hdup, hcap]
  · intro e m hev hact hmem hma hst hdup hcap
    simp [registerMemberForEvent, hev, hact, hmem, hma, hst, hdup, hcap]

/-- One registration request preserves "every stored event is well-formed and
satisfies the C3 invariant". -/
theorem applyRegistration_preserves (findMember : Nat → Option Member)
    (events : Nat → Option Event) (eid mid now : Nat)
    (h : ∀ i e, events i = some e → eventWF e ∧ eventInvariant e) :
    ∀ i e, applyRegistration events findMember eid mid now i = some e →
      eventWF e ∧ eventInvariant e := by
  intro i e hi
  cases hr : registerMemberForEvent events findMember eid mid now with
  | error msg =>
    simp only [applyRegistration, hr] at hi
    exact h i e hi
  | ok e2 =>
    simp only [applyRegistration, hr] at hi
    by_cases hieq : i = eid
    · rw [if_pos hieq] at hi
      cases Option.some.inj hi
      exact register_ok_preserves hr (fun e3 he3 => h eid e3 he3)
    · rw [if_neg hieq] at hi
      exact h i e hi

/-- C3: from any store whose events are schema-valid and satisfy the
invariant (member references unique in `attendees`, attendee count at most
`maxAttendees` when set), the invariant holds after any sequence of
`registerMemberForEvent` calls; moreover registering an already-registered
member fails and leaves the store (hence the attendee count) unchanged, and
registering a full event fails and leaves the store (hence the attendee
list) unchanged. -/
theorem registerMemberForEvent_invariant (findMember : Nat → Option Member) :
    (∀ events : Nat → Option Event,
      (∀ i e, events i = some e → eventWF e ∧ eventInvariant e) →
      ∀ reqs : List (Nat × Nat × Nat), ∀ i e,
        applyRegistrations findMember events reqs i = some e →
          eventWF e ∧ eventInvariant e) ∧
    (∀ events : Nat → Option Event, ∀ eid mid now e, events eid = some e →
      (∃ a ∈ e.attendees, a.member = mid) →
      (∃ msg, registerMemberForEvent events findMember eid mid now = .error msg) ∧
      applyRegistration events findMember eid mid now = events) ∧
    (∀ events : Nat → Option Event, ∀ eid mid now e c, events eid = some e →
      e.maxAttendees = some c → 1 ≤ c → e.attendees.length ≥ c →
      (∃ msg, registerMemberForEvent events findMember eid mid now = .error msg) ∧
      applyRegistration events findMember eid mid now = events) := by
  refine ⟨?_, ?_, ?_⟩
  · intro events h reqs
    induction reqs generalizing events with
    | nil => exact h
    | cons r rest ih =>
      obtain ⟨eid, mid, now⟩ := r
      exact ih _ (applyRegistration_preserves findMember events eid mid now h)
  · rintro events eid mid now e hev ⟨a, ha, ham⟩
    have hnotok : ∀ e2, ¬ registerMemberForEvent events findMember eid mid now = .ok e2 := by
      intro e2 hok
      obtain ⟨ev, mem, hev2, -, -, -, -, hdup, -, -⟩ := register_ok_inv hok
      rw [hev] at hev2
      cases Option.some.inj hev2
      have hmem : e.attendees.any (fun a => a.member == mid) = true :=
        List.any_eq_true.mpr ⟨a, ha, by simp [ham]⟩
      rw [hdup] at hmem
      exact Bool.false_ne_true hmem
    cases hr : registerMemberForEvent events findMember eid mid now with
    | ok e2 => exact absurd hr (hnotok e2)
    | error msg =>
      refine ⟨⟨msg, rfl⟩, ?_⟩
      unfold applyRegistration
      rw [hr]
  · intro events eid mid now e c hev hcap hc1 hlen
    have hnotok : ∀ e2, ¬ registerMemberForEvent events findMember eid mid now = .ok e2 := by
      intro e2 hok
      obtain ⟨ev, mem, hev2, -, -, -, -, -, hfull, -⟩ := register_ok_inv hok
      rw [hev] at hev2
      cases Option.some.inj hev2
      have hcaptrue : atCapacity e = true := by
        unfold atCapacity
        rw [hcap]
        simp only [Bool.and_eq_true, bne_iff_ne, ne_eq, decide_eq_true_eq]
        omega
      rw [hfull] at hcaptrue
      exact Bool.false_ne_true hcaptrue
    cases hr : registerMemberForEvent events findMember eid mid now with
    | ok e2 => exact absurd hr (hnotok e2)
    | error msg =>
      refine ⟨⟨msg, rfl⟩, ?_⟩
      unfold applyRegistration
      rw [hr]

/-- Event used to instantiate the attendee-summary and registration
theorems: full (2 attendees, cap 2). -/
def demoEvent : Event :=
  { id := 5, title := "Meetup", eventDate := 100, maxAttendees := some 2,
    registrationFee := 10, status := "Upcoming",
    attendees := [⟨21, 0, "Attended", "Paid"⟩, ⟨22, 0, "Registered", "Pending"⟩],
    createdBy := 1, isActive := true }

/-- Event with spare capacity, used to instantiate the registration
theorems. -/
def demoEvent2 : Event :=
  { id := 6, title := "Gala", eventDate := 200, maxAttendees := some 3,
    registrationFee := 0, status := "Upcoming",
    attendees := [⟨21, 0, "Registered", "Paid"⟩],
    createdBy := 1, isActive := true }

/-- Event store holding `demoEvent` (full, 2 of 2 seats) and `demoEvent2`
(1 of 3 seats). -/
def demoEventStore : Nat → Option Event :=
  fun i => if i = 5 then some demoEvent else if i = 6 then some demoEvent2 else none

/-- Member store holding one active member with id 23. -/
def demoFindMember : Nat → Option Member :=
  fun i => if i = 23 then some { demoMember with id := 23 } else none

/-- Every event of `demoEventStore` is schema-valid and satisfies the C3
invariant. -/
theorem demoEventStore_wf :
    ∀ i e, demoEventStore i = some e → eventWF e ∧ eventInvariant e := by
  intro i e hi
  unfold demoEventStore at hi
  by_cases h5 : i = 5
  · rw [if_pos h5] at hi
    cases Option.some.inj hi
    exact ⟨fun c hc => by cases hc; decide,
      by decide, fun c hc => by cases hc; decide⟩
  · rw [if_neg h5] at hi
    by_cases h6 : i = 6
    · rw [if_pos h6] at hi
      cases Option.some.inj hi
      exact ⟨fun c hc => by cases hc; decide,
        by decide, fun c hc => by cases hc; decide⟩
    · rw [if_neg h6] at hi
      exact absurd hi (by simp)

/-- Concrete instance of C3: after a sequence of registration requests on
`demoEventStore` every stored event still satisfies the invariant; a
duplicate registration (member 21 on event 5) fails and leaves the store
unchanged; a registration on the full event 5 fails and leaves the store
unchanged. -/
theorem registerMemberForEvent_invariant_witness :
    (∀ i e, applyRegistrations demoFindMember demoEventStore
        [(6, 23, 7), (5, 23, 8), (6, 23, 9)] i = some e →
      eventWF e ∧ eventInvariant e) ∧
    ((∃ msg, registerMemberForEvent demoEventStore demoFindMember 5 21 0 = .error msg) ∧
      applyRegistration demoEventStore demoFindMember 5 21 0 = demoEventStore) ∧
    ((∃ msg, registerMemberForEvent demoEventStore demoFindMember 5 23 0 = .error msg) ∧
      applyRegistration demoEventStore demoFindMember 5 23 0 = demoEventStore) := by
  refine ⟨?_, ?_, ?_⟩
  · exact (registerMemberForEvent_invariant demoFindMember).1 demoEventStore
      demoEventStore_wf [(6, 23, 7), (5, 23, 8), (6, 23, 9)]
  · exact (registerMemberForEvent_invariant demoFindMember).2.1 demoEventStore
      5 21 0 demoEvent (by decide) ⟨⟨21, 0, "Attended", "Paid"⟩, by decide, rfl⟩
  · exact (registerMemberForEvent_invariant demoFindMember).2.2 demoEventStore
      5 23 0 demoEvent 2 (by decide) rfl (by decide) (by decide)

/-- Concrete instance of C4: registering member 23 on the upcoming,
non-full, free-of-charge event 6 succeeds and appends one "Registered"
attendee with `paymentStatus = "Paid"` (fee 0); registering on the full
event 5 fails with the capacity message; registering on a missing event
fails with "Event not found". -/
theorem registerMemberForEvent_checks_witness :
    registerMemberForEvent demoEventStore demoFindMember 6 23 7 =
      .ok { demoEvent2 with attendees := demoEvent2.attendees ++
        [{ member := 23, registrationDate := 7, attendanceStatus := "Registered",
           paymentStatus := "Paid" }] } ∧
    registerMemberForEvent demoEventStore demoFindMember 5 23 0 =
      .error "Event is at maximum capacity" ∧
    registerMemberForEvent demoEventStore demoFindMember 99 23 0 =
      .error "Event not found" := by
  refine ⟨?_, ?_, ?_⟩
  · have h := (registerMemberForEvent_checks demoEventStore demoFindMember 6 23 7).2.2.2.2.2
      demoEvent2 { demoMember with id := 23 } (by decide) rfl (by decide) rfl rfl
      (by decide) (by decide)
    simpa [demoEvent2] using h
  · exact (registerMemberForEvent_checks demoEventStore demoFindMember 5 23 0).2.2.2.2.1
      demoEvent { demoMember with id := 23 } (by decide) rfl (by decide) rfl rfl
      (by decide) (by decide)
  · exact (registerMemberForEvent_checks demoEventStore demoFindMember 99 23 0).1
      (Or.inl (by decide))

/-- The `summary` object of `EventService.getEventAttendees`. -/
structure AttendeeSummary where
  totalRegistered : Nat
  attended : Nat
  noShow : Nat
  pending : Nat
deriving Repr, DecidableEq

/-- Return value of `EventService.getEventAttendees`. -/
structure AttendeeReport where
  eventTitle : String
  eventDate : Nat
  attendees : List Attendee
  summary : AttendeeSummary
deriving Repr, DecidableEq

/-- `EventService.getEventAttendees`: rejects missing or inactive events,
otherwise returns the attendees plus the tally of attendance statuses. -/
def getEventAttendees (findEvent : Nat → Option Event) (eventId : Nat) :
    Except String AttendeeReport :=
  match findEvent eventId with
  | none => .error "Event not found"
  | some event =>
    if event.isActive = false then .error "Event not found" else
    .ok { eventTitle := event.title
          eventDate := event.eventDate
          attendees := event.attendees
          summary :=
            { totalRegistered := event.attendees.length
              attended := (event.attendees.filter
                (fun a => a.attendanceStatus == "Attended")).length
              noShow := (event.attendees.filter
                (fun a => a.attendanceStatus == "No Show")).length
              pending := (event.attendees.filter
                (fun a => a.attendanceStatus == "Registered")).length } }

/-- Counting helper for C10: a list whose every element has one of three
mutually exclusive statuses is partitioned by the three filters. -/
theorem length_eq_three_filters (l : List Attendee)
    (h : ∀ a ∈ l, a.attendanceStatus = "Attended" ∨ a.attendanceStatus = "No Show" ∨
      a.attendanceStatus = "Registered") :
    l.length = (l.filter (fun a => a.attendanceStatus == "Attended")).length +
      (l.filter (fun a => a.attendanceStatus == "No Show")).length +
      (l.filter (fun a => a.attendanceStatus == "Registered")).length := by
  induction l with
  | nil => rfl
  | cons a rest ih =>
    have hrest := ih (fun x hx => h x (List.mem_cons_of_mem a hx))
    have ha := h a (List.mem_cons_self a rest)
    simp only [List.filter_cons, List.length_cons]
    rcases ha with ha | ha | ha <;>
      simp [ha, hrest] <;> omega

/-- C10: for every active event all of whose attendees carry one of the three
schema statuses ("Attended", "No Show", "Registered" — the `enum` of
`eventSchema.attendees.attendanceStatus`), the summary returned by
`getEventAttendees` satisfies `totalRegistered = attended + noShow + pending`. -/
theorem getEventAttendees_partition (findEvent : Nat → Option Event) (eventId : Nat)
    (e : Event) (he : findEvent eventId = some e) (hact : e.isActive = true)
    (henum : ∀ a ∈ e.attendees, a.attendanceStatus = "Attended" ∨
      a.attendanceStatus = "No Show" ∨ a.attendanceStatus = "Registered") :
    ∃ rep, getEventAttendees findEvent eventId = .ok rep ∧
      rep.summary.totalRegistered =
        rep.summary.attended + rep.summary.noShow + rep.summary.pending := by
  simp only [getEventAttendees, he, hact]
  exact ⟨_, rfl, length_eq_three_filters e.attendees henum⟩

/-- Concrete instance of C10: on `demoEvent` (one "Attended", one
"Registered" attendee) the summary satisfies the partition equation. -/
theorem getEventAttendees_partition_witness :
    ∃ rep, getEventAttendees (fun i => if i = 5 then some demoEvent else none) 5 = .ok rep ∧
      rep.summary.totalRegistered =
        rep.summary.attended + rep.summary.noShow + rep.summary.pending := by
  exact getEventAttendees_partition (fun i => if i = 5 then some demoEvent else none) 5
    demoEvent (by decide) (by decide) (by decide)

/-! ## Error middleware (`error.middleware.js`)

Services throw plain `Error` objects.  `errorHandler` spreads the error
(keeping own enumerable properties such as an explicitly attached
`statusCode`), then consults `err.name`/`err.code` through a chain of `if`
statements, and finally answers `error.statusCode || 500` with
`error.message || "Server Error"`.
-/

/-- The shape of a thrown JavaScript error as `errorHandler` inspects it:
`name`, the Mongo error `code`, an optional explicitly attached
`statusCode`, the message, the first key of `err.keyValue` (duplicate-key
branch) and the collected validation messages (validation branch). -/
structure JsError where
  name : String
  code : Option Nat
  statusCode : Option Nat
  message : String
  keyValueFirstKey : String
  validationMessages : List String
deriving Repr, DecidableEq

/-- A plain `new Error(message)`: name "Error", no `code`, no `statusCode`. -/
def plainError (message : String) : JsError :=
  { name := "Error", code := none, statusCode := none, message := message,
    keyValueFirstKey := "", validationMessages := [] }

/-- `errorHandler` of `error.middleware.js`, returning the HTTP status code
and response message.  Each recognised shape overwrites the accumulated
`{statusCode, message}`, mirroring the sequential `if` statements of the
source; unrecognised errors fall through to `statusCode || 500`. -/
def errorHandler (err : JsError) : Nat × String :=
  let e0 : Option Nat × String := (err.statusCode, err.message)
  let e1 := if err.name = "CastError" then ((some 404 : Option Nat), "Resource not found") else e0
  let e2 := if err.code = some 11000
    then ((some 409 : Option Nat), err.keyValueFirstKey ++ " already exists") else e1
  let e3 := if err.name = "ValidationError"
    then ((some 400 : Option Nat), String.intercalate ", " err.validationMessages) else e2
  let e4 := if err.name = "JsonWebTokenError" then ((some 401 : Option Nat), "Invalid token") else e3
  let e5 := if err.name = "TokenExpiredError" then ((some 401 : Option Nat), "Token expired") else e4
  (e5.1.getD 500, if e5.2 = "" then "Server Error" else e5.2)

/-! ## Payment lookup (`PaymentService.getPaymentById`) -/

/-- `PaymentService.getPaymentById`: throws a plain "Payment not found"
error when the payment is missing or soft-deleted. -/
def getPaymentById (findPayment : Nat → Option Payment) (paymentId : Nat) :
    Except JsError Payment :=
  match findPayment paymentId with
  | none => .error (plainError "Payment not found")
  | some payment =>
    if payment.isActive = false then .error (plainError "Payment not found")
    else .ok payment

/-- The HTTP response of the `getPaymentById` pipeline: controller catches
the thrown error and forwards it via `next(error)` to `errorHandler`. -/
def getPaymentByIdHttp (findPayment : Nat → Option Payment) (paymentId : Nat) :
    Nat × String :=
  match getPaymentById findPayment paymentId with
  | .error e => errorHandler e
  | .ok _ => (200, "Payment retrieved successfully")

/-- Soft-deleted payment used as the failing input of C5. -/
def demoInactivePayment : Payment :=
  { paymentId := "PAYX7", member := 1, amount := 50, paymentType := "Other",
    paymentMethod := "Cash", status := "Completed", transactionId := "T7",
    description := "", receiptFile := none, event := none, paymentDate := 0,
    processedBy := none, isActive := false }

/-- C5 (failing input): `getPaymentById` on an existing payment with
`isActive = false` throws the plain "Payment not found" error, which carries
no `statusCode` and matches none of the shapes `errorHandler` recognises
(CastError, duplicate key, ValidationError, JWT errors), so the HTTP
response has status 500 — not the 404 the claim (and the route's own
swagger documentation) promises. -/
theorem getPaymentById_inactive_http500 :
    getPaymentById (fun i => if i = 7 then some demoInactivePayment else none) 7 =
      .error (plainError "Payment not found") ∧
    getPaymentByIdHttp (fun i => if i = 7 then some demoInactivePayment else none) 7 =
      (500, "Payment not found") ∧
    (getPaymentByIdHttp (fun i => if i = 7 then some demoInactivePayment else none) 7).1 ≠ 404 := by
  refine ⟨rfl, by decide, by decide⟩

/-! ## Login (`AuthService.login`) -/

/-- A `User` document (`user.model.js`): `password` holds the stored hash. -/
structure User where
  id : Nat
  name : String
  email : String
  password : String
  role : String
  isActive : Bool
deriving Repr, DecidableEq

/-- `AuthService.login`: unknown email and wrong password both throw the
plain "Invalid credentials" error; a deactivated account throws "Account is
deactivated" (checked before the password).  `checkPassword candidate hash`
abstracts `bcrypt` comparison and `signToken` abstracts `jwt.sign`. -/
def login (findByEmail : String → Option User)
    (checkPassword : String → String → Bool) (signToken : Nat → String)
    (email password : String) : Except JsError (Nat × String) :=
  match findByEmail email with
  | none => .error (plainError "Invalid credentials")
  | some user =>
    if user.isActive = false then .error (plainError "Account is deactivated") else
    if checkPassword password user.password = false then
      .error (plainError "Invalid credentials")
    else .ok (user.id, signToken user.id)

/-- The HTTP response of the login pipeline (controller forwards thrown
errors to `errorHandler`). -/
def loginHttp (findByEmail : String → Option User)
    (checkPassword : String → String → Bool) (signToken : Nat → String)
    (email password : String) : Nat × String :=
  match login findByEmail checkPassword signToken email password with
  | .error e => errorHandler e
  | .ok _ => (200, "Login successful")

/-- C6 (amended): for any store, an unknown email and a wrong password on an
existing active account produce byte-identical responses — message "Invalid
credentials" and HTTP status 500 (the login errors carry no `statusCode` and
match none of the shapes `errorHandler` recognises, so the handler falls
back to 500, not 401) — hence the response does not reveal whether the email
exists; a deactivated account fails with the distinct message "Account is
deactivated". -/
theorem login_no_user_leak (findByEmail : String → Option User)
    (checkPassword : String → String → Bool) (signToken : Nat → String) :
    (∀ email password, findByEmail email = none →
      loginHttp findByEmail checkPassword signToken email password =
        (500, "Invalid credentials")) ∧
    (∀ email password u, findByEmail email = some u → u.isActive = true →
      checkPassword password u.password = false →
      loginHttp findByEmail checkPassword signToken email password =
        (500, "Invalid credentials")) ∧
    (∀ email password u, findByEmail email = some u → u.isActive = false →
      loginHttp findByEmail checkPassword signToken email password =
        (500, "Account is deactivated")) := by
  refine ⟨?_, ?_, ?_⟩
  · intro email password hnone
    simp [loginHttp, login, hnone, errorHandler, plainError]
  · intro email password u hu hact hpw
    simp [loginHttp, login, hu, hact, hpw, errorHandler, plainError]
  · intro email password u hu hact
    simp [loginHttp, login, hu, hact, errorHandler, plainError]

/-- Active user used to instantiate the login theorems. -/
def demoUser : User :=
  { id := 2, name := "B", email := "b@x.com", password := "HASH",
    role := "Admin", isActive := true }

/-- Deactivated user used to instantiate the login theorems. -/
def demoDisabledUser : User :=
  { id := 3, name := "C", email := "c@x.com", password := "HASH2",
    role := "Member", isActive := false }

/-- User store for the login theorems. -/
def demoFindByEmail : String → Option User :=
  fun e => if e = "b@x.com" then some demoUser
    else if e = "c@x.com" then some demoDisabledUser else none

/-- Password oracle for the login theorems: only "letmein" matches "HASH". -/
def demoCheckPassword : String → String → Bool :=
  fun candidate hash => candidate == "letmein" && hash == "HASH"

/-- Concrete instance of the amended C6: unknown email and wrong password on
the active demo account both answer `(500, "Invalid credentials")`, and the
deactivated account answers the distinct `(500, "Account is deactivated")`. -/
theorem login_no_user_leak_witness :
    loginHttp demoFindByEmail demoCheckPassword (fun i => toString i) "nobody@x.com" "pw" =
      (500, "Invalid credentials") ∧
    loginHttp demoFindByEmail demoCheckPassword (fun i => toString i) "b@x.com" "wrong" =
      (500, "Invalid credentials") ∧
    loginHttp demoFindByEmail demoCheckPassword (fun i => toString i) "c@x.com" "letmein" =
      (500, "Account is deactivated") := by
  have h := login_no_user_leak demoFindByEmail demoCheckPassword (fun i => toString i)
  exact ⟨h.1 "nobody@x.com" "pw" (by decide),
    h.2.1 "b@x.com" "wrong" demoUser (by decide) (by decide) (by decide),
    h.2.2 "c@x.com" "letmein" demoDisabledUser (by decide) (by decide)⟩

/-- C6 (counterexample to the claim as stated): the two indistinguishable
login failures both carry HTTP status 500, not the claimed 401 — the
messages are identical, but the status of the claim is wrong. -/
theorem login_status_counterexample :
    loginHttp demoFindByEmail demoCheckPassword (fun i => toString i) "nobody@x.com" "pw" =
      (500, "Invalid credentials") ∧
    loginHttp demoFindByEmail demoCheckPassword (fun i => toString i) "b@x.com" "wrong" =
      (500, "Invalid credentials") ∧
    (loginHttp demoFindByEmail demoCheckPassword (fun i => toString i) "nobody@x.com" "pw").1
      ≠ 401 := by
  refine ⟨by decide, by decide, by decide⟩

/-! ## Zone deletion (`ZoneService.deleteZone`) -/

/-- A `Zone` document (`zone.model.js`). -/
structure Zone where
  id : Nat
  name : String
  description : String
  isActive : Bool
deriving Repr, DecidableEq

/-- `ZoneService.deleteZone`: `findOne({_id, isActive: true})` makes both a
missing and an already-inactive zone answer "Zone not found"; a positive
count of active members referencing the zone blocks the soft delete with a
conflict message; otherwise `isActive` is set to false (the record is never
removed). -/
def deleteZone (zones : Nat → Option Zone) (members : List Member) (zoneId : Nat) :
    Except String Zone :=
  match zones zoneId with
  | none => .error "Zone not found"
  | some zone =>
    if zone.isActive = false then .error "Zone not found" else
    let activeMemberCount := (members.filter (fun m => m.zone == zoneId && m.isActive)).length
    if 0 < activeMemberCount then
      .error ("Cannot delete zone. It has " ++ toString activeMemberCount ++
        " active member(s). Please reassign or remove members first.")
    else .ok { zone with isActive := false }

/-- The zone store after one `deleteZone` request: the updated zone is
persisted on success, the store is untouched when the service throws. -/
def applyDeleteZone (zones : Nat → Option Zone) (members : List Member) (zoneId : Nat) :
    Nat → Option Zone :=
  match deleteZone zones members zoneId with
  | .error _ => zones
  | .ok z2 => fun i => if i = zoneId then some z2 else zones i

/-- C7: on an existing active zone, `deleteZone` fails with a conflict and
leaves the zone store (hence the zone's `isActive` flag) unchanged whenever
at least one active member references the zone, and succeeds — setting
`isActive` to false while keeping the record in the store — whenever no
active member references it. -/
theorem deleteZone_spec (zones : Nat → Option Zone) (members : List Member)
    (zoneId : Nat) (z : Zone) (hz : zones zoneId = some z) (hact : z.isActive = true) :
    ((∃ m ∈ members, m.zone = zoneId ∧ m.isActive = true) →
      (∃ msg, deleteZone zones members zoneId = .error msg) ∧
      applyDeleteZone zones members zoneId = zones ∧
      applyDeleteZone zones members zoneId zoneId = some z) ∧
    ((∀ m ∈ members, m.zone = zoneId → m.isActive = false) →
      deleteZone zones members zoneId = .ok { z with isActive := false } ∧
      applyDeleteZone zones members zoneId zoneId = some { z with isActive := false }) := by
  constructor
  · rintro ⟨m, hm, hmz, hma⟩
    have hmem : m ∈ members.filter (fun m => m.zone == zoneId && m.isActive) :=
      List.mem_filter.mpr ⟨hm, by simp [hmz, hma]⟩
    have hcount : 0 < (members.filter (fun m => m.zone == zoneId && m.isActive)).length :=
      List.length_pos_of_mem hmem
    have herr : deleteZone zones members zoneId = .error
        ("Cannot delete zone. It has " ++
          toString (members.filter (fun m => m.zone == zoneId && m.isActive)).length ++
          " active member(s). Please reassign or remove members first.") := by
      simp [deleteZone, hz, hact, hcount]
    refine ⟨⟨_, herr⟩, ?_, ?_⟩
    · unfold applyDeleteZone
      rw [herr]
    · unfold applyDeleteZone
      rw [herr]
      exact hz
  · intro hnone
    have hfil : members.filter (fun m => m.zone == zoneId && m.isActive) = [] := by
      apply List.eq_nil_iff_forall_not_mem.mpr
      intro m hm
      obtain ⟨hmem, hp⟩ := List.mem_filter.mp hm
      simp only [Bool.and_eq_true, beq_iff_eq] at hp
      exact absurd hp.2 (by simp [hnone m hmem hp.1])
    have hok : deleteZone zones members zoneId = .ok { z with isActive := false } := by
      simp [deleteZone, hz, hact, hfil]
    refine ⟨hok, ?_⟩
    unfold applyDeleteZone
    rw [hok]
    simp

/-- Zone store used to instantiate C7: zone 3 has an active member, zone 4
has none. -/
def demoZones : Nat → Option Zone :=
  fun i => if i = 3 then some ⟨3, "North", "", true⟩
    else if i = 4 then some ⟨4, "South", "", true⟩ else none

/-- Concrete instance of C7: deleting zone 3 (referenced by the active
`demoMember`) fails and leaves the store unchanged; deleting zone 4 (no
members) succeeds, setting `isActive := false` while keeping the record. -/
theorem deleteZone_spec_witness :
    ((∃ msg, deleteZone demoZones [demoMember] 3 = .error msg) ∧
      applyDeleteZone demoZones [demoMember] 3 = demoZones ∧
      applyDeleteZone demoZones [demoMember] 3 3 = some ⟨3, "North", "", true⟩) ∧
    (deleteZone demoZones [demoMember] 4 = .ok ⟨4, "South", "", false⟩ ∧
      applyDeleteZone demoZones [demoMember] 4 4 = some ⟨4, "South", "", false⟩) := by
  constructor
  · exact (deleteZone_spec demoZones [demoMember] 3 ⟨3, "North", "", true⟩
      (by decide) (by decide)).1 ⟨demoMember, by decide, rfl, rfl⟩
  · exact (deleteZone_spec demoZones [demoMember] 4 ⟨4, "South", "", true⟩
      (by decide) (by decide)).2 (by decide)

/-! ## Payment update (`PaymentService.updatePayment`) -/

/-- A request body accepted by `updatePaymentSchema`: Joi rejects unknown
keys, so only `status`, `transactionId` and `description` can reach the
service (each optional). -/
structure PaymentUpdate where
  status : Option String
  transactionId : Option String
  description : Option String
deriving Repr, DecidableEq

/-- `PaymentService.updatePayment`: missing or soft-deleted payments throw
the plain "Payment not found" error; otherwise `Object.assign` overwrites
exactly the fields present in the validated body. -/
def updatePayment (findPayment : Nat → Option Payment) (paymentId : Nat)
    (u : PaymentUpdate) : Except JsError Payment :=
  match findPayment paymentId with
  | none => .error (plainError "Payment not found")
  | some p =>
    if p.isActive = false then .error (plainError "Payment not found") else
    .ok { p with status := u.status.getD p.status,
                 transactionId := u.transactionId.getD p.transactionId,
                 description := u.description.getD p.description }

/-- C8: on an existing active payment, `updatePayment` changes at most
`status`, `transactionId` and `description`; `paymentId`, `member`,
`amount`, `paymentType`, `paymentMethod`, `event`, `receiptFile`,
`paymentDate`, `processedBy` and `isActive` are returned unchanged. -/
theorem updatePayment_frame (findPayment : Nat → Option Payment) (paymentId : Nat)
    (u : PaymentUpdate) (p : Payment) (hp : findPayment paymentId = some p)
    (hact : p.isActive = true) :
    ∃ p2, updatePayment findPayment paymentId u = .ok p2 ∧
      p2.paymentId = p.paymentId ∧ p2.member = p.member ∧ p2.amount = p.amount ∧
      p2.paymentType = p.paymentType ∧ p2.paymentMethod = p.paymentMethod ∧
      p2.event = p.event ∧ p2.receiptFile = p.receiptFile ∧
      p2.paymentDate = p.paymentDate ∧ p2.processedBy = p.processedBy ∧
      p2.isActive = p.isActive := by
  simp only [updatePayment, hp, hact]
  exact ⟨_, rfl, rfl, rfl, rfl, rfl, rfl, rfl, rfl, rfl, rfl, rfl⟩

/-- Active payment used to instantiate C8. -/
def demoPayment : Payment :=
  { paymentId := "PAYA1", member := 1, amount := 75, paymentType := "Late Fee",
    paymentMethod := "Cash", status := "Pending", transactionId := "",
    description := "", receiptFile := none, event := none, paymentDate := 3,
    processedBy := some 9, isActive := true }

/-- Concrete instance of C8: updating `demoPayment` with a new status and
description leaves every frame field unchanged. -/
theorem updatePayment_frame_witness :
    ∃ p2, updatePayment (fun i => if i = 4 then some demoPayment else none) 4
        ⟨some "Completed", none, some "paid in cash"⟩ = .ok p2 ∧
      p2.paymentId = demoPayment.paymentId ∧ p2.member = demoPayment.member ∧
      p2.amount = demoPayment.amount ∧ p2.paymentType = demoPayment.paymentType ∧
      p2.paymentMethod = demoPayment.paymentMethod ∧ p2.event = demoPayment.event ∧
      p2.receiptFile = demoPayment.receiptFile ∧
      p2.paymentDate = demoPayment.paymentDate ∧
      p2.processedBy = demoPayment.processedBy ∧ p2.isActive = demoPayment.isActive := by
  obtain ⟨p2, hok, hfr⟩ := updatePayment_frame
    (fun i => if i = 4 then some demoPayment else none) 4
    ⟨some "Completed", none, some "paid in cash"⟩ demoPayment (by decide) (by decide)
  exact ⟨p2, hok, hfr⟩

/-! ## Notification creation (`NotificationService.createNotification`) -/

/-- A request body for `createNotification`. -/
structure NotificationData where
  title : String
  message : String
  type : String
  priority : String
  targetMembers : List Nat
deriving Repr, DecidableEq

/-- A `Notification` document (`notification.model.js`; `status` defaults to
"Sent", `isRead` to false, `isActive` to true). -/
structure Notification where
  title : String
  message : String
  type : String
  priority : String
  targetMembers : List Nat
  sentBy : Nat
  status : String
  isRead : Bool
  isActive : Bool
deriving Repr, DecidableEq

/-- `NotificationService.createNotification`: when `targetMembers` is
non-empty it queries the active members whose `_id` is `$in` the target list
and rejects the whole request when the number of matches differs from the
length of the target list; otherwise the notification is persisted. -/
def createNotification (memberStore : List Member) (data : NotificationData)
    (sentBy : Nat) : Except String Notification :=
  if 0 < data.targetMembers.length then
    let found := memberStore.filter (fun m => data.targetMembers.contains m.id && m.isActive)
    if found.length ≠ data.targetMembers.length then
      .error "One or more target members not found"
    else
      .ok { title := data.title, message := data.message, type := data.type,
            priority := data.priority, targetMembers := data.targetMembers,
            sentBy := sentBy, status := "Sent", isRead := false, isActive := true }
  else
    .ok { title := data.title, message := data.message, type := data.type,
          priority := data.priority, targetMembers := data.targetMembers,
          sentBy := sentBy, status := "Sent", isRead := false, isActive := true }

/-- C9: a `createNotification` call whose `targetMembers` list repeats an
id fails with "One or more target members not found" (and creates nothing)
even when every referenced member exists and is active, because the store
can match each distinct id at most once while the validation compares the
match count against the full length of the target list. -/
theorem createNotification_duplicate_targets (memberStore : List Member)
    (data : NotificationData) (sentBy : Nat)
    (hids : (memberStore.map (fun m => m.id)).Nodup)
    (hdup : ¬ data.targetMembers.Nodup)
    (_hall : ∀ tid ∈ data.targetMembers,
      ∃ m ∈ memberStore, m.id = tid ∧ m.isActive = true) :
    createNotification memberStore data sentBy =
      .error "One or more target members not found" := by
  have hne : data.targetMembers ≠ [] := by
    intro h
    exact hdup (h ▸ List.nodup_nil)
  have hpos : 0 < data.targetMembers.length := List.length_pos.mpr hne
  set found := memberStore.filter
    (fun m => data.targetMembers.contains m.id && m.isActive) with hfound
  have hfsub : (found.map (fun m => m.id)) ⊆ data.targetMembers.dedup := by
    intro x hx
    obtain ⟨m, hm, hmx⟩ := List.mem_map.mp hx
    obtain ⟨-, hp⟩ := List.mem_filter.mp hm
    simp only [Bool.and_eq_true] at hp
    have hp1 : m.id ∈ data.targetMembers := by simpa using hp.1
    exact List.mem_dedup.mpr (hmx ▸ hp1)
  have hfnodup : (found.map (fun m => m.id)).Nodup :=
    hids.sublist ((List.filter_sublist memberStore).map (fun m => m.id))
  have hlen1 : found.length ≤ data.targetMembers.dedup.length := by
    have := (List.subperm_of_subset hfnodup hfsub).length_le
    simpa using this
  have hlen2 : data.targetMembers.dedup.length < data.targetMembers.length := by
    rcases Nat.lt_or_ge data.targetMembers.dedup.length data.targetMembers.length with h | h
    · exact h
    · exfalso
      have heq : data.targetMembers.dedup = data.targetMembers :=
        (List.dedup_sublist data.targetMembers).eq_of_length
          (Nat.le_antisymm ((List.dedup_sublist data.targetMembers).length_le) h)
      exact hdup (heq ▸ List.nodup_dedup data.targetMembers)
  have hne2 : found.length ≠ data.targetMembers.length := by omega
  simp only [createNotification, hpos, if_true, ← hfound]
  rw [if_pos hne2]

/-- Member store for C9: two distinct active members 31 and 32. -/
def demoMembers9 : List Member :=
  [{ demoMember with id := 31 }, { demoMember with id := 32 }]

/-- Concrete instance of C9: targeting member 31 twice fails with the
"target members not found" error although member 31 exists and is active. -/
theorem createNotification_duplicate_targets_witness :
    createNotification demoMembers9 ⟨"T", "M", "General", "Medium", [31, 31]⟩ 2 =
      .error "One or more target members not found" := by
  apply createNotification_duplicate_targets demoMembers9
    ⟨"T", "M", "General", "Medium", [31, 31]⟩ 2 (by decide) (by decide)
  intro tid htid
  refine ⟨{ demoMember with id := 31 }, by decide, ?_, by decide⟩
  have : tid = 31 := by
    rcases List.mem_cons.mp htid with h | h
    · exact h
    · simpa using h
  simp [this]

end CMS
